import Mathlib

/-!
# Verification of the AIInterview LimeSurvey plugin

Shallow embedding of the chat-proxy endpoint (`AIInterview.php`:
`handleChatRequest`, `sanitizeMessages`, `injectLanguageInstruction`,
`callOpenAI`, `sendJsonResponse`) and of the client chat widget
(`ai-interview.js`), together with proofs and refutations of the
specification claims about them.

Message contents are modelled as `List Char` (PHP `mb_substr` and the JS
string functions used here are character-based); short fixed strings such
as role names and error messages are modelled as `String`.
-/

namespace AIInterview

/-! ## Character-level string helpers (PHP `trim`, JS `String.prototype.trim`) -/

/-- The characters stripped by PHP `trim` with its default character list
`" \t\n\r\0\x0B"`. -/
def phpIsTrimChar (c : Char) : Bool :=
  c == ' ' || c == '\t' || c == '\n' || c == '\r' || c == Char.ofNat 0 || c == Char.ofNat 11

/-- PHP `trim($s)`: strip the default trim characters from both ends. -/
def phpTrim (s : List Char) : List Char :=
  ((s.dropWhile phpIsTrimChar).reverse.dropWhile phpIsTrimChar).reverse

/-- JavaScript `String.prototype.trim` whitespace: ASCII whitespace together
with NBSP and the BOM (the further exotic Unicode space code points admitted
by the ECMAScript `WhiteSpace` production are omitted; no claim depends on
them). -/
def jsIsSpace (c : Char) : Bool :=
  c == ' ' || c == '\t' || c == '\n' || c == '\r' || c == Char.ofNat 11 ||
    c == Char.ofNat 12 || c == Char.ofNat 160 || c == Char.ofNat 65279

/-- JavaScript `s.trim()`. -/
def jsTrim (s : List Char) : List Char :=
  ((s.dropWhile jsIsSpace).reverse.dropWhile jsIsSpace).reverse

/-- PHP `empty($s)` for a string value: the empty string and the string
`"0"` are the falsy strings. -/
def phpFalsyStr (s : List Char) : Bool :=
  s == [] || s == [Char.ofNat 48]

/-! ## Messages and `sanitizeMessages` -/

/-- The PHP value found under the `role` key of an incoming message: either
an actual string or some non-string value (which the strict `in_array`
check of `sanitizeMessages` always rejects). -/
inductive RoleVal where
  | str (s : String)
  | nonStr
deriving DecidableEq

/-- One element of the incoming `messages` array, as seen by
`sanitizeMessages`:
* `notArray` — the element is not a PHP array (`!is_array($msg)`)
* `missingKey` — the element lacks the `role` or the `content` key
  (`!isset($msg['role'], $msg['content'])`)
* `pair role content` — both keys are present; `content` is the string the
  PHP `(string)` cast of the raw content value produces. -/
inductive RawMsg where
  | notArray
  | missingKey
  | pair (role : RoleVal) (content : List Char)
deriving DecidableEq

/-- A sanitized chat message. -/
structure Msg where
  role : String
  content : List Char
deriving DecidableEq

/-- `$allowed = ['system', 'user', 'assistant'];` -/
def allowedRoles : List String := ["system", "user", "assistant"]

/-- The body of the `sanitizeMessages` loop: drop an element that is not an
array, lacks a key, or carries a role outside the allowed list; keep the
rest with the content trimmed and capped at 8000 characters
(`mb_substr(trim(...), 0, 8000)`). -/
def sanitizeOne : RawMsg → Option Msg
  | .notArray => none
  | .missingKey => none
  | .pair r c =>
    match r with
    | .nonStr => none
    | .str role =>
      if allowedRoles.contains role then
        some { role := role, content := (phpTrim c).take 8000 }
      else none

/-- `sanitizeMessages` — the loop over the incoming array. -/
def sanitizeMessages (messages : List RawMsg) : List Msg :=
  messages.filterMap sanitizeOne

/-- Whether `sanitizeMessages` keeps an element: it is an array with both
keys and a string role in the allowed list. -/
def rawKept : RawMsg → Bool
  | .pair (.str role) _ => allowedRoles.contains role
  | _ => false

/-! ## `injectLanguageInstruction` -/

/-- `preg_replace('/[^a-zA-Z\-]/', '', $language)`, falling back to `en`
when the result is empty (`empty($lang)`; the filtered string can never be
`"0"`, but the PHP falsy test is kept faithfully). -/
def sanitizeLang (language : List Char) : List Char :=
  let l := language.filter fun c => c.isAlpha || c == '-'
  if phpFalsyStr l then "en".toList else l

/-- The language instruction string built by `injectLanguageInstruction`
(an ASCII single quote surrounds the language code). -/
def langInstruction (lang : List Char) : List Char :=
  "IMPORTANT: You must conduct this entire interview in the language with BCP-47 code ".toList
    ++ [Char.ofNat 39] ++ lang ++ [Char.ofNat 39]
    ++ ". All your responses must be in that language, regardless of what language the user writes in.".toList

/-- The `foreach (&$msg)` loop of `injectLanguageInstruction`: prepend the
instruction to the content of the first message whose role is `system`;
`none` when no system message exists. -/
def injectGo (instr : List Char) : List Msg → Option (List Msg)
  | [] => none
  | m :: rest =>
    if m.role == "system" then
      some ({ m with content := instr ++ '\n' :: '\n' :: m.content } :: rest)
    else
      (injectGo instr rest).map (m :: ·)

/-- `injectLanguageInstruction($messages, $language)` — modify the first
system message in place, or `array_unshift` a fresh system message. -/
def injectLanguageInstruction (messages : List Msg) (language : List Char) : List Msg :=
  let instr := langInstruction (sanitizeLang language)
  match injectGo instr messages with
  | some ms => ms
  | none => { role := "system", content := instr } :: messages

/-! ## `callOpenAI` -/

/-- The parts of the decoded upstream JSON body that `callOpenAI` reads:
`$data['choices'][0]['message']['content']`, `$data['usage']['total_tokens']`,
`$data['choices'][0]['finish_reason']` and `$data['error']['message']`.
A `none` field models an absent (or `null`) path. -/
structure OpenAIBody where
  choiceContent : Option (List Char)
  totalTokens : Option Int
  finishReason : Option String
  apiErrorMessage : Option String
deriving DecidableEq

/-- Outcome of the single cURL call: the network and the upstream service
are the environment of the program, so the call itself is an oracle value.
* `curlError m` — `curl_error($ch)` returned the non-empty string `m`
* `noResponse` — no cURL error but `$response === false || $response === ''`
* `response code parsed` — an HTTP response with status `code` whose body
  decodes to `parsed` (`none` when `json_decode` fails). -/
inductive CurlOutcome where
  | curlError (msg : String)
  | noResponse
  | response (httpCode : Nat) (parsed : Option OpenAIBody)
deriving DecidableEq

/-- `max(256, (int)($maxTokens / 2))` — half the budget, floored at 256,
reserved for the completion (PHP `(int)` truncates toward zero). -/
def maxCompletionTokens (maxTokens : Int) : Int :=
  max 256 (Int.tdiv maxTokens 2)

/-- PHP `empty(...)` on the extracted completion content: absent, empty, or
the string `"0"`. -/
def phpEmptyContent : Option (List Char) → Bool
  | none => true
  | some c => phpFalsyStr c

/-- `callOpenAI` — the error ladder after the request was issued, in source
order: cURL error, empty response, non-200 status, empty completion;
otherwise the content, token count (`?? 0`) and finish reason (`?? 'stop'`).
The request payload itself (model, messages, `max_tokens`) does not affect
which branch is taken, so it is not a parameter of the embedding. -/
def callOpenAI (outcome : CurlOutcome) : Except String (List Char × Int × String) :=
  match outcome with
  | .curlError m => .error ("Network error contacting AI service: " ++ m)
  | .noResponse => .error "Empty response from AI service"
  | .response code parsed =>
    if code ≠ 200 then
      .error ("AI service error: " ++
        (match parsed with
         | some b =>
           match b.apiErrorMessage with
           | some m => m
           | none => "HTTP " ++ toString code
         | none => "HTTP " ++ toString code))
    else
      match parsed with
      | none => .error "The AI returned an empty response. Please try again."
      | some b =>
        if phpEmptyContent b.choiceContent then
          .error "The AI returned an empty response. Please try again."
        else
          .ok (b.choiceContent.getD [], b.totalTokens.getD 0, b.finishReason.getD "stop")

/-! ## `handleChatRequest` -/

/-- The fields `handleChatRequest` extracts from a decoded JSON body, after
the PHP casts: `(int)$body['surveyId']` (default 0), `(array)$body['messages']`
(default `[]`), `(int)$body['maxTokens']` (default 6000),
`(string)$body['language']` (default `'en'`). -/
structure BodyFields where
  surveyId : Int
  messages : List RawMsg
  maxTokens : Int
  language : List Char

/-- An incoming request: its HTTP method and the result of
`json_decode(file_get_contents('php://input'), true)` — `none` when the
decoded value is not an array. -/
structure ChatRequest where
  method : String
  body : Option BodyFields

/-- The host environment of one request: the admin-permission check
(a thrown exception is already folded into `false`), the per-survey session
flags, the two plugin settings, and the oracle for the one upstream call. -/
structure Env where
  isAdmin : Bool
  sessionActive : Int → Bool
  apiKey : List Char
  model : String
  curl : CurlOutcome

/-- A JSON response body: either `{error: string}` or the success shape
`{reply, tokensUsed, finishReason}`. -/
inductive RespBody where
  | errorBody (msg : String)
  | success (reply : List Char) (tokensUsed : Int) (finishReason : String)
deriving DecidableEq

/-- What `handleChatRequest` produces: the HTTP status, the JSON body, and
the message list passed to `callOpenAI` (`none` when no upstream call was
made). -/
structure ProxyResponse where
  status : Nat
  body : RespBody
  forwarded : Option (List Msg)

/-- `handleChatRequest` — the full check ladder in source order: method,
JSON body, non-empty `messages`, session-or-admin gate, configured API key,
non-empty sanitized list, then the upstream call.  The raw-body snippets
interpolated into the 400 message are not modelled (only the fixed prefix
of the message is kept). -/
def handleChatRequest (env : Env) (req : ChatRequest) : ProxyResponse :=
  if req.method == "POST" then
    match req.body with
    | none => ⟨400, .errorBody "Invalid JSON body. Received: ", none⟩
    | some b =>
      if b.messages.isEmpty then
        ⟨400, .errorBody "Missing required field: messages", none⟩
      else
        let hasSession := decide (0 < b.surveyId) && env.sessionActive b.surveyId
        if !hasSession && !env.isAdmin then
          ⟨403, .errorBody "No active survey session. Please start the survey first.", none⟩
        else
          let apiKey := phpTrim env.apiKey
          if phpFalsyStr apiKey then
            ⟨503, .errorBody "The AI service is not configured. Please contact the survey administrator.", none⟩
          else
            let sanitized := sanitizeMessages b.messages
            if sanitized.isEmpty then
              ⟨400, .errorBody "No valid messages provided", none⟩
            else
              let finalMsgs := injectLanguageInstruction sanitized b.language
              match callOpenAI env.curl with
              | .error e => ⟨502, .errorBody e, some finalMsgs⟩
              | .ok r => ⟨200, .success r.1 r.2.1 r.2.2, some finalMsgs⟩
  else
    ⟨405, .errorBody "Method not allowed. Use POST.", none⟩

/-! ## The client widget (`ai-interview.js`)

The widget is a single-threaded DOM event handler.  Its per-widget state is
the set of JS closure variables that the claims are about, plus the
visibility flags of the controls that gate which handlers can fire
(a handler whose control is disabled or hidden cannot run, so firing it in
the model is a no-op).  `displayed` records the message bubbles appended by
`appendMessage`, tagged with the role string the JS passes. -/

/-- `'Interviewer: '` -/
def interviewerTag : List Char := "Interviewer: ".toList

/-- `'User: '` -/
def userTag : List Char := "User: ".toList

/-- `'--- Interview concluded ---'` -/
def markerLine : List Char := "--- Interview concluded ---".toList

/-- `'[AI Interview in progress]'` -/
def progressPlaceholder : List Char := "[AI Interview in progress]".toList

/-- `'[Interview skipped — AI service unavailable]'` -/
def skipPlaceholder : List Char := "[Interview skipped — AI service unavailable]".toList

/-- The closure state of one widget instance. -/
structure WState where
  tokensUsed : Nat
  finished : Bool
  transcriptLines : List (List Char)
  displayed : List (String × List Char)
  answerField : List Char
  errorVisible : Bool
  openingPending : Bool
  awaitingReply : Bool
  finishBtnVisible : Bool
deriving DecidableEq

/-- The DOM / network events a widget instance can receive.  The `Ok`/`Err`
events deliver the outcome of the corresponding in-flight XHR; `tokens` is
the `data.tokensUsed || 0` value of a successful proxy response. -/
inductive WEvent where
  | openOk (reply : List Char) (tokens : Nat)
  | openErr
  | userSend (text : List Char)
  | sendOk (reply : List Char) (tokens : Nat)
  | sendErr
  | retryOk (reply : List Char) (tokens : Nat)
  | retryErr
  | finishClick
  | skipClick
deriving DecidableEq

/-- The state of a freshly initialised widget (no transcript to restore):
the hidden answer field is pre-populated with the placeholder; with a
configured prompt the opening call is in flight, otherwise the
configuration-error banner is shown. -/
def initWidget (hasPrompt : Bool) : WState :=
  { tokensUsed := 0
    finished := false
    transcriptLines := []
    displayed := []
    answerField := progressPlaceholder
    errorVisible := !hasPrompt
    openingPending := hasPrompt
    awaitingReply := false
    finishBtnVisible := false }

/-- `updateAnswerField()` — `answerField.value = transcriptLines.join('\n')`. -/
def joinNl : List (List Char) → List Char
  | [] => []
  | [l] => l
  | l :: ls => l ++ '\n' :: joinNl ls

/-- `updateAnswerField()` on the model state. -/
def updateAnswerField (s : WState) : WState :=
  { s with answerField := joinNl s.transcriptLines }

/-- `finishInterview(auto)` — guard on `finished`, disable the input,
append the empty separator line and the concluded marker, update the
answer field. -/
def finishInterview (s : WState) : WState :=
  if s.finished then s
  else
    updateAnswerField
      { s with finished := true
               finishBtnVisible := false
               transcriptLines := s.transcriptLines ++ [[], markerLine] }

/-- `checkTokenBudget()` — auto-finish once the counter reaches the budget. -/
def checkTokenBudget (maxTokens : Nat) (s : WState) : WState :=
  if maxTokens ≤ s.tokensUsed then finishInterview s else s

/-- The shared body of the three success callbacks: add the tokens, append
the assistant bubble and transcript line, update the answer field, show the
finish button where the source does (opening and retry callbacks only),
then check the token budget. -/
def onAssistantReply (maxTokens : Nat) (showFinishBtn : Bool) (s : WState)
    (reply : List Char) (tokens : Nat) : WState :=
  let s1 :=
    { s with tokensUsed := s.tokensUsed + tokens
             displayed := s.displayed ++ [("assistant", reply)]
             transcriptLines := s.transcriptLines ++ [interviewerTag ++ reply] }
  let s2 := updateAnswerField s1
  let s3 := if showFinishBtn then { s2 with finishBtnVisible := true } else s2
  checkTokenBudget maxTokens s3

/-- `sendUserMessage()` — unreachable while finished or while an XHR is in
flight (the input and send button are disabled then); a blank message is
ignored; otherwise the trimmed text is appended as a user bubble and a
`User: ` transcript line and the reply XHR goes in flight. -/
def sendUserMessage (s : WState) (text : List Char) : WState :=
  if s.finished || s.openingPending || s.awaitingReply then s
  else
    let t := jsTrim text
    if t.isEmpty then s
    else
      updateAnswerField
        { s with displayed := s.displayed ++ [("user", t)]
                 transcriptLines := s.transcriptLines ++ [userTag ++ t]
                 awaitingReply := true }

/-- `skipInterview()` — reachable from the error banner: mark finished,
overwrite the answer field with the skip placeholder, hide the banner. -/
def skipInterview (s : WState) : WState :=
  { s with finished := true
           answerField := skipPlaceholder
           errorVisible := false
           finishBtnVisible := false }

/-- One step of the widget state machine. -/
def step (maxTokens : Nat) (s : WState) : WEvent → WState
  | .openOk reply tokens =>
    if s.openingPending then
      onAssistantReply maxTokens true { s with openingPending := false } reply tokens
    else s
  | .openErr =>
    if s.openingPending then { s with openingPending := false, errorVisible := true } else s
  | .userSend text => sendUserMessage s text
  | .sendOk reply tokens =>
    if s.awaitingReply then
      onAssistantReply maxTokens false { s with awaitingReply := false } reply tokens
    else s
  | .sendErr =>
    if s.awaitingReply then { s with awaitingReply := false, errorVisible := true } else s
  | .retryOk reply tokens =>
    if s.errorVisible then
      onAssistantReply maxTokens true { s with errorVisible := false } reply tokens
    else s
  | .retryErr => s
  | .finishClick => if s.finishBtnVisible then finishInterview s else s
  | .skipClick => if s.errorVisible then skipInterview s else s

/-- Run a widget from a state through a list of events. -/
def runTrace (maxTokens : Nat) (s : WState) : List WEvent → WState
  | [] => s
  | e :: tr => runTrace maxTokens (step maxTokens s e) tr

/-! ## Transcript restoration (`restoreFromTranscript`) -/

/-- Split a string at every `'\n'`, exactly like JS `s.split('\n')`
(so `"".split` gives one empty field). -/
def splitNl : List Char → List (List Char)
  | [] => [[]]
  | c :: rest =>
    match splitNl rest with
    | [] => [[]]
    | h :: t => if c = '\n' then [] :: h :: t else (c :: h) :: t

/-- One line of the `restoreFromTranscript` loop: a line starting with
`Interviewer: ` becomes an assistant bubble, else a line starting with
`User: ` becomes a user bubble, else the line is ignored.  The JS
`line.replace(prefix, '')` removes the first occurrence of the prefix,
which under the `startsWith` guard is the leading one, i.e. it drops the
prefix. -/
def parseTranscriptLine (line : List Char) : Option (String × List Char) :=
  if interviewerTag.isPrefixOf line then some ("assistant", line.drop 13)
  else if userTag.isPrefixOf line then some ("user", line.drop 6)
  else none

/-- The bubbles `restoreFromTranscript(transcript)` appends. -/
def restoreBubbles (transcript : List Char) : List (String × List Char) :=
  (splitNl transcript).filterMap parseTranscriptLine

/-! ## Event and state predicates used by the widget claims -/

/-- The two events that end the interview independently of the token
budget: the Finish button and the Skip button. -/
def isExplicitEnd : WEvent → Bool
  | .finishClick => true
  | .skipClick => true
  | _ => false

/-- The events that deliver a successful proxy response. -/
def isReplyEvent : WEvent → Bool
  | .openOk _ _ => true
  | .sendOk _ _ => true
  | .retryOk _ _ => true
  | _ => false

/-- The Skip button event. -/
def isSkipEvent : WEvent → Bool
  | .skipClick => true
  | _ => false

/-- A character list without a newline. -/
def noNl (l : List Char) : Bool := !(l.contains '\n')

/-- An event whose text payload (AI reply or typed user message) is free of
newline characters. -/
def eventClean : WEvent → Bool
  | .openOk r _ => noNl r
  | .sendOk r _ => noNl r
  | .retryOk r _ => noNl r
  | .userSend t => noNl t
  | _ => true

/-- No successful proxy reply is delivered once the widget is finished
(in the UI this means no XHR launched before finishing resolves
successfully afterwards). -/
def noPostFinishReply (maxTokens : Nat) (s : WState) : List WEvent → Bool
  | [] => true
  | e :: tr =>
    (!s.finished || !isReplyEvent e) && noPostFinishReply maxTokens (step maxTokens s e) tr

/-- The number of `User: ` lines recorded in the transcript. -/
def countUserLines (lines : List (List Char)) : Nat :=
  (lines.filter fun l => userTag.isPrefixOf l).length

/-- The mandatory-interaction submit guard of `initWidget`:
`!finished && transcriptLines.length < 2` prevents submission. -/
def mandatoryBlocksSubmit (s : WState) : Bool :=
  !s.finished && decide (s.transcriptLines.length < 2)

/-- The transcript line pushed together with a display bubble: `appendMessage`
with role `assistant` goes with an `Interviewer: ` line, the user role with
a `User: ` line. -/
def displayLine (b : String × List Char) : List Char :=
  if b.1 == "assistant" then interviewerTag ++ b.2 else userTag ++ b.2

/-- A line of the persisted-answer format: an `Interviewer: ` or `User: `
line. -/
def isIULine (l : List Char) : Bool :=
  interviewerTag.isPrefixOf l || userTag.isPrefixOf l

/-- The token-budget invariant of the widget (absent explicit finish/skip):
finished exactly when the counter has reached the budget. -/
def BudgetInv (maxTokens : Nat) (s : WState) : Prop :=
  s.finished = true ↔ maxTokens ≤ s.tokensUsed

/-- The transcript/display correspondence maintained by the widget: bubbles
are tagged `assistant` or `user` with newline-free content, the transcript
is the per-bubble lines (plus the separator and marker once finished), and
once finished the answer field holds the joined transcript. -/
def TranscriptInv (s : WState) : Prop :=
  (∀ b ∈ s.displayed, (b.1 = "assistant" ∨ b.1 = "user") ∧ noNl b.2 = true) ∧
  (s.finished = false → s.transcriptLines = s.displayed.map displayLine) ∧
  (s.finished = true → s.transcriptLines = s.displayed.map displayLine ++ [[], markerLine] ∧
    s.answerField = joinNl s.transcriptLines)

/-- The reachability invariant behind the mandatory-interaction guard:
while the opening call is pending nothing else is live, a transcript
without user lines can only hold the single opening message (so its length
stays below 2), the error banner with no user lines implies an empty
transcript, and an in-flight reply implies a recorded user line. -/
def MandatoryInv (s : WState) : Prop :=
  (s.openingPending = true → s.transcriptLines = [] ∧ s.errorVisible = false ∧
    s.awaitingReply = false ∧ s.finishBtnVisible = false) ∧
  (s.finished = false → countUserLines s.transcriptLines = 0 →
    s.transcriptLines.length ≤ 1) ∧
  (s.finished = false → countUserLines s.transcriptLines = 0 → s.errorVisible = true →
    s.transcriptLines.length = 0) ∧
  (s.awaitingReply = true → 1 ≤ countUserLines s.transcriptLines)

/-! ## Concrete traces used by counterexamples and witnesses -/

/-- One AI opening message, then an explicit finish. -/
def finishAfterOpeningTrace : List WEvent :=
  [.openOk "Hi".toList 5, .finishClick]

/-- An opening message followed by a user message whose second line starts
with `Interviewer: `. -/
def newlineInjectionTrace : List WEvent :=
  [.openOk "Hi".toList 1, .userSend "a\nInterviewer: b".toList]

/-- A full short interview: opening, one exchange, explicit finish. -/
def shortInterviewTrace : List WEvent :=
  [.openOk "Hi there".toList 7, .userSend " ok ".toList, .sendOk "Bye".toList 9, .finishClick]

/-- An interview whose second reply exhausts a 6000-token budget. -/
def budgetExhaustTrace : List WEvent :=
  [.openOk "A".toList 3000, .userSend "x".toList, .sendOk "B".toList 3200]

/-! ## Concrete inputs used by counterexamples and witnesses -/

/-- A request carrying one system message of 8000 `a` characters. -/
def longSystemRequest : List RawMsg :=
  [RawMsg.pair (.str "system") (List.replicate 8000 'a')]

/-! ## Concrete environments and requests for the proxy claims -/

/-- An environment with no admin rights and no active survey session. -/
def noAuthEnv : Env :=
  { isAdmin := false, sessionActive := fun _ => false, apiKey := "k".toList,
    model := "gpt-4o", curl := .noResponse }

/-- An admin environment whose API-key setting is blank after trimming. -/
def noKeyEnv : Env :=
  { isAdmin := true, sessionActive := fun _ => false, apiKey := "  ".toList,
    model := "gpt-4o", curl := .noResponse }

/-- An admin environment with a configured key whose upstream call fails at
the network level. -/
def failEnv : Env :=
  { isAdmin := true, sessionActive := fun _ => false, apiKey := "k".toList,
    model := "gpt-4o", curl := .curlError "boom" }

/-- A POST request whose decoded body has an empty `messages` array. -/
def emptyMessagesRequest : ChatRequest :=
  { method := "POST",
    body := some { surveyId := 1, messages := [], maxTokens := 6000, language := "en".toList } }

/-- A POST request carrying one valid user message. -/
def userMsgRequest : ChatRequest :=
  { method := "POST",
    body := some { surveyId := 1, messages := [.pair (.str "user") "Hi".toList],
                   maxTokens := 6000, language := "en".toList } }

/-- A POST request whose `messages` array is non-empty but holds only
elements that sanitization drops. -/
def allInvalidRequest : ChatRequest :=
  { method := "POST",
    body := some { surveyId := 1,
                   messages := [RawMsg.notArray, RawMsg.missingKey,
                                RawMsg.pair (.str "owner") "x".toList,
                                RawMsg.pair .nonStr "y".toList],
                   maxTokens := 6000, language := "en".toList } }


end AIInterview

namespace AIInterview

/-! ## Helper lemmas about `sanitizeMessages` and `injectLanguageInstruction` -/

lemma mem_sanitizeMessages {raw : List RawMsg} {m : Msg} (h : m ∈ sanitizeMessages raw) :
    m.role ∈ allowedRoles ∧ m.content.length ≤ 8000 := by
  rw [sanitizeMessages, List.mem_filterMap] at h
  obtain ⟨x, -, hx⟩ := h
  cases x with
  | notArray => simp [sanitizeOne] at hx
  | missingKey => simp [sanitizeOne] at hx
  | pair r c =>
    cases r with
    | nonStr => simp [sanitizeOne] at hx
    | str role =>
      simp only [sanitizeOne] at hx
      split at hx
      · next hrole =>
        obtain rfl := Option.some_injective _ hx
        refine ⟨by simpa using hrole, ?_⟩
        simp only [List.length_take]
        exact Nat.min_le_left 8000 (phpTrim c).length
      · simp at hx

lemma injectGo_eq_none {instr : List Char} {ms : List Msg} (h : ∀ m ∈ ms, m.role ≠ "system") :
    injectGo instr ms = none := by
  induction ms with
  | nil => rfl
  | cons a rest ih =>
    have ha : a.role ≠ "system" := h a (by simp)
    simp only [injectGo, beq_iff_eq, if_neg ha]
    rw [ih fun m hm => h m (by simp [hm])]
    rfl

lemma injectGo_mem {instr : List Char} {ms ms' : List Msg} (h : injectGo instr ms = some ms')
    {m : Msg} (hm : m ∈ ms') :
    m ∈ ms ∨ ∃ m' ∈ ms, m'.role = "system" ∧
      m = { m' with content := instr ++ '\n' :: '\n' :: m'.content } := by
  induction ms generalizing ms' with
  | nil => simp [injectGo] at h
  | cons a rest ih =>
    by_cases ha : a.role = "system"
    · simp only [injectGo, beq_iff_eq, if_pos ha, Option.some_inj] at h
      subst h
      rcases List.mem_cons.mp hm with rfl | hmem
      · exact Or.inr ⟨a, by simp, ha, rfl⟩
      · exact Or.inl (by simp [hmem])
    · simp only [injectGo, beq_iff_eq, if_neg ha] at h
      cases hrest : injectGo instr rest with
      | none => rw [hrest] at h; simp at h
      | some ms'' =>
        rw [hrest] at h
        have h' : a :: ms'' = ms' := by simpa using h
        subst h'
        rcases List.mem_cons.mp hm with rfl | hmem
        · exact Or.inl (by simp)
        · rcases ih hrest hmem with h1 | ⟨m', hm', hr, he⟩
          · exact Or.inl (by simp [h1])
          · exact Or.inr ⟨m', by simp [hm'], hr, he⟩

lemma injectGo_split {instr : List Char} {pre : List Msg} {s : Msg} {post : List Msg}
    (hpre : ∀ m ∈ pre, m.role ≠ "system") (hs : s.role = "system") :
    injectGo instr (pre ++ s :: post) =
      some (pre ++ { s with content := instr ++ '\n' :: '\n' :: s.content } :: post) := by
  induction pre with
  | nil => simp [injectGo, hs]
  | cons a rest ih =>
    have ha : a.role ≠ "system" := hpre a (by simp)
    have ih' := ih fun m hm => hpre m (by simp [hm])
    simp only [List.cons_append, injectGo, beq_iff_eq, if_neg ha, List.append_eq, ih']
    rfl

lemma injectGo_some_decomp {instr : List Char} {ms ms' : List Msg}
    (h : injectGo instr ms = some ms') :
    ∃ pre s post, ms = pre ++ s :: post ∧ s.role = "system" ∧
      (∀ m ∈ pre, m.role ≠ "system") ∧
      ms' = pre ++ { s with content := instr ++ '\n' :: '\n' :: s.content } :: post := by
  induction ms generalizing ms' with
  | nil => simp [injectGo] at h
  | cons a rest ih =>
    by_cases ha : a.role = "system"
    · simp only [injectGo, beq_iff_eq, if_pos ha, Option.some_inj] at h
      exact ⟨[], a, rest, rfl, ha, by simp, h.symm⟩
    · simp only [injectGo, beq_iff_eq, if_neg ha] at h
      cases hrest : injectGo instr rest with
      | none => rw [hrest] at h; simp at h
      | some ms'' =>
        rw [hrest] at h
        have h2 : a :: ms'' = ms' := by simpa using h
        obtain ⟨pre, s, post, heq, hrole, hpre, heq2⟩ := ih hrest
        refine ⟨a :: pre, s, post, by rw [heq]; rfl, hrole, ?_, by rw [← h2, heq2]; rfl⟩
        intro m hm
        rcases List.mem_cons.mp hm with rfl | hm
        · exact ha
        · exact hpre m hm

lemma mem_injectLanguageInstruction {ms : List Msg} {lang : List Char} {m : Msg}
    (h : m ∈ injectLanguageInstruction ms lang) :
    m ∈ ms ∨ m = ⟨"system", langInstruction (sanitizeLang lang)⟩ ∨
      ∃ m' ∈ ms, m'.role = "system" ∧
        m = { m' with content := langInstruction (sanitizeLang lang) ++ '\n' :: '\n' :: m'.content } := by
  rw [injectLanguageInstruction] at h
  cases hgo : injectGo (langInstruction (sanitizeLang lang)) ms with
  | none =>
    rw [hgo] at h
    rcases List.mem_cons.mp h with rfl | hmem
    · exact Or.inr (Or.inl rfl)
    · exact Or.inl hmem
  | some ms' =>
    rw [hgo] at h
    rcases injectGo_mem hgo h with h1 | h2
    · exact Or.inl h1
    · exact Or.inr (Or.inr h2)

/-! ## Claim C1 -/

/-- C1 — amended (the claim as stated, with only the length bound refuted
below, is corrected to): every message forwarded to the upstream API has a
role in the allowed set and content of at most
`(instruction length) + 2 + 8000` characters; moreover the plain
8000-character cap holds for every message except the single system message
carrying the injected language instruction, whose content is exactly the
instruction followed by two newline characters and the capped original
content — either a fresh instruction-only system message is prepended to a
list that is capped throughout, or exactly one existing system message is
rewritten to `instruction ++ "\n\n" ++ content` with that original content
capped at 8000, everything before and after it staying capped. -/
theorem C1_amended (raw : List RawMsg) (language : List Char) :
    (∀ m ∈ injectLanguageInstruction (sanitizeMessages raw) language,
      m.role ∈ allowedRoles ∧
        m.content.length ≤ (langInstruction (sanitizeLang language)).length + 2 + 8000) ∧
    ((injectLanguageInstruction (sanitizeMessages raw) language =
        ⟨"system", langInstruction (sanitizeLang language)⟩ :: sanitizeMessages raw ∧
      ∀ m ∈ sanitizeMessages raw, m.content.length ≤ 8000) ∨
     (∃ pre c post, c.length ≤ 8000 ∧
       injectLanguageInstruction (sanitizeMessages raw) language =
         pre ++ ⟨"system", langInstruction (sanitizeLang language) ++ '\n' :: '\n' :: c⟩ :: post ∧
       (∀ m ∈ pre, m.content.length ≤ 8000) ∧
       (∀ m ∈ post, m.content.length ≤ 8000))) := by
  constructor
  · intro m h
    rcases mem_injectLanguageInstruction h with h1 | h2 | ⟨m', hm', hrole, he⟩
    · obtain ⟨hr, hc⟩ := mem_sanitizeMessages h1
      exact ⟨hr, by omega⟩
    · subst h2
      refine ⟨by simp [allowedRoles], ?_⟩
      show (langInstruction (sanitizeLang language)).length ≤
        (langInstruction (sanitizeLang language)).length + 2 + 8000
      omega
    · obtain ⟨hr, hc⟩ := mem_sanitizeMessages hm'
      subst he
      constructor
      · simpa [hrole] using hr
      · simp only [List.length_append, List.length_cons]
        omega
  · cases hgo : injectGo (langInstruction (sanitizeLang language)) (sanitizeMessages raw) with
    | none =>
      left
      constructor
      · simp only [injectLanguageInstruction]
        rw [hgo]
      · intro m hm
        exact (mem_sanitizeMessages hm).2
    | some ms' =>
      right
      obtain ⟨pre, s, post, heq, hrole, -, heq2⟩ := injectGo_some_decomp hgo
      have hs : s ∈ sanitizeMessages raw := by rw [heq]; simp
      refine ⟨pre, s.content, post, (mem_sanitizeMessages hs).2, ?_, ?_, ?_⟩
      · have hmsg :
            ({ s with content :=
                langInstruction (sanitizeLang language) ++ '\n' :: '\n' :: s.content } : Msg) =
            ⟨"system", langInstruction (sanitizeLang language) ++ '\n' :: '\n' :: s.content⟩ := by
          cases s
          simp only [Msg.mk.injEq]
          exact ⟨hrole, trivial⟩
        simp only [injectLanguageInstruction]
        rw [hgo, heq2, hmsg]
      · intro m hm
        have hm2 : m ∈ sanitizeMessages raw := by rw [heq]; exact List.mem_append_left _ hm
        exact (mem_sanitizeMessages hm2).2
      · intro m hm
        have hm2 : m ∈ sanitizeMessages raw := by
          rw [heq]; exact List.mem_append_right _ (List.mem_cons_of_mem _ hm)
        exact (mem_sanitizeMessages hm2).2

lemma phpTrim_replicate_a (n : Nat) : phpTrim (List.replicate n 'a') = List.replicate n 'a' := by
  have hdrop : ∀ k, (List.replicate k 'a').dropWhile phpIsTrimChar = List.replicate k 'a' := by
    intro k
    cases k with
    | zero => rfl
    | succ k => simp [List.replicate_succ, List.dropWhile_cons, phpIsTrimChar]
  rw [phpTrim, hdrop, List.reverse_replicate, hdrop, List.reverse_replicate]

/-- C1 — counterexample to the claim as stated: a request whose single
system message holds 8000 `a` characters passes sanitization unchanged,
and the language injection then prepends the 181-character instruction plus
two newlines, so the forwarded content has 8183 characters. -/
theorem C1_counterexample :
    ¬ (∀ m ∈ injectLanguageInstruction (sanitizeMessages longSystemRequest) "en".toList,
        m.role ∈ allowedRoles ∧ m.content.length ≤ 8000) := by
  intro h
  have hone : sanitizeOne (RawMsg.pair (.str "system") (List.replicate 8000 'a')) =
      some ⟨"system", List.replicate 8000 'a'⟩ := by
    simp only [sanitizeOne]
    rw [if_pos (by decide), phpTrim_replicate_a, List.take_replicate, Nat.min_self]
  have hsan : sanitizeMessages longSystemRequest =
      [⟨"system", List.replicate 8000 'a'⟩] := by
    rw [longSystemRequest, sanitizeMessages, List.filterMap_cons, hone]
    rfl
  have hinj : injectLanguageInstruction (sanitizeMessages longSystemRequest) "en".toList =
      [⟨"system", langInstruction (sanitizeLang "en".toList) ++
        '\n' :: '\n' :: List.replicate 8000 'a'⟩] := by
    rw [hsan]
    rfl
  have hmem := h _ (by rw [hinj]; exact List.mem_singleton.mpr rfl)
  have := hmem.2
  simp only [List.length_append, List.length_cons, List.length_replicate] at this
  omega

/-- C1 — witness for the amended theorem at a concrete input, discharging
the membership hypothesis of its per-message half. -/
theorem C1_witness :
    ((⟨"user", "Hi".toList⟩ : Msg).role ∈ allowedRoles ∧
      (⟨"user", "Hi".toList⟩ : Msg).content.length ≤
        (langInstruction (sanitizeLang "en".toList)).length + 2 + 8000) ∧
    ((injectLanguageInstruction (sanitizeMessages [RawMsg.pair (.str "user") "Hi".toList])
        "en".toList =
        ⟨"system", langInstruction (sanitizeLang "en".toList)⟩ ::
          sanitizeMessages [RawMsg.pair (.str "user") "Hi".toList] ∧
      ∀ m ∈ sanitizeMessages [RawMsg.pair (.str "user") "Hi".toList],
        m.content.length ≤ 8000) ∨
     (∃ pre c post, c.length ≤ 8000 ∧
       injectLanguageInstruction (sanitizeMessages [RawMsg.pair (.str "user") "Hi".toList])
         "en".toList =
         pre ++ ⟨"system", langInstruction (sanitizeLang "en".toList) ++ '\n' :: '\n' :: c⟩ ::
           post ∧
       (∀ m ∈ pre, m.content.length ≤ 8000) ∧
       (∀ m ∈ post, m.content.length ≤ 8000))) :=
  ⟨(C1_amended [RawMsg.pair (.str "user") "Hi".toList] "en".toList).1
      ⟨"user", "Hi".toList⟩ (by decide),
   (C1_amended [RawMsg.pair (.str "user") "Hi".toList] "en".toList).2⟩

/-! ## Claim C4 -/

/-- C4 — a POST request with a decoded JSON body whose `messages` field is
absent or empty (PHP defaults an absent field to `[]`) is answered with
status 400 and an `{error: string}` body, and no upstream call is made. -/
theorem C4_empty_messages (env : Env) (req : ChatRequest) (b : BodyFields)
    (hm : req.method = "POST") (hb : req.body = some b) (hempty : b.messages = []) :
    (handleChatRequest env req).status = 400 ∧
    (handleChatRequest env req).body = .errorBody "Missing required field: messages" ∧
    (handleChatRequest env req).forwarded = none := by
  simp [handleChatRequest, hm, hb, hempty]

/-- C4 — witness: the concrete empty-messages request, in any environment. -/
theorem C4_witness :
    (handleChatRequest noAuthEnv emptyMessagesRequest).status = 400 ∧
    (handleChatRequest noAuthEnv emptyMessagesRequest).body =
      .errorBody "Missing required field: messages" ∧
    (handleChatRequest noAuthEnv emptyMessagesRequest).forwarded = none :=
  C4_empty_messages noAuthEnv emptyMessagesRequest _ rfl rfl rfl

/-! ## Claim C5 -/

/-- C5 — counterexample to the claim as stated: the empty-`messages` check
runs before the authorization gate, so a request without a session and
without admin rights can still be answered 400 rather than 403. -/
theorem C5_counterexample :
    (handleChatRequest noAuthEnv emptyMessagesRequest).status = 400 ∧
    (handleChatRequest noAuthEnv emptyMessagesRequest).status ≠ 403 := by decide

/-- C5 — amended: a well-formed POST request with a non-empty `messages`
list, no active session for its survey id, and no admin rights is answered
403 with an `{error: string}` body before any upstream call. -/
theorem C5_amended (env : Env) (req : ChatRequest) (b : BodyFields)
    (hm : req.method = "POST") (hb : req.body = some b) (hne : b.messages ≠ [])
    (hsess : (decide (0 < b.surveyId) && env.sessionActive b.surveyId) = false)
    (hadmin : env.isAdmin = false) :
    (handleChatRequest env req).status = 403 ∧
    (handleChatRequest env req).body =
      .errorBody "No active survey session. Please start the survey first." ∧
    (handleChatRequest env req).forwarded = none := by
  simp [handleChatRequest, hm, hb, List.isEmpty_iff, hne, hsess, hadmin]

/-- C5 — witness for the amended theorem. -/
theorem C5_witness :
    (handleChatRequest noAuthEnv userMsgRequest).status = 403 ∧
    (handleChatRequest noAuthEnv userMsgRequest).body =
      .errorBody "No active survey session. Please start the survey first." ∧
    (handleChatRequest noAuthEnv userMsgRequest).forwarded = none :=
  C5_amended noAuthEnv userMsgRequest _ rfl rfl (by decide) (by decide) rfl

/-! ## Claim C10 -/

lemma sanitizeOne_eq_none {m : RawMsg} (h : rawKept m = false) : sanitizeOne m = none := by
  cases m with
  | notArray => rfl
  | missingKey => rfl
  | pair r c =>
    cases r with
    | nonStr => rfl
    | str role =>
      simp only [rawKept] at h
      simp only [sanitizeOne, h]
      rfl

lemma sanitizeMessages_eq_nil {l : List RawMsg} (h : ∀ m ∈ l, rawKept m = false) :
    sanitizeMessages l = [] := by
  induction l with
  | nil => rfl
  | cons a rest ih =>
    rw [sanitizeMessages, List.filterMap_cons, sanitizeOne_eq_none (h a (by simp))]
    exact ih fun m hm => h m (by simp [hm])

/-- If the requester has a session or admin rights, the 403 gate (in the
form the simplifier gives its condition) does not fire. -/
lemma auth_gate_neg {env : Env} {b : BodyFields}
    (hauth : (0 < b.surveyId ∧ env.sessionActive b.surveyId = true) ∨ env.isAdmin = true) :
    ¬((b.surveyId ≤ 0 ∨ env.sessionActive b.surveyId = false) ∧ env.isAdmin = false) := by
  rintro ⟨hd, ha⟩
  rcases hauth with ⟨h1, h2⟩ | h3
  · rcases hd with hd | hd
    · omega
    · simp [h2] at hd
  · simp [h3] at ha

/-- C10 — counterexample to the claim as stated: sanitization runs after
the authorization gate, so a request whose messages are all invalid is
answered 403 — not 400 — when it carries no session and no admin rights. -/
theorem C10_counterexample :
    (handleChatRequest noAuthEnv allInvalidRequest).status = 403 ∧
    (handleChatRequest noAuthEnv allInvalidRequest).status ≠ 400 := by decide

/-- C10 — amended: an authorized, well-formed POST request with a
configured key and a non-empty `messages` list in which every element is
invalid (not an array, missing a key, or with a role outside the allowed
set) is answered 400 `{error: "No valid messages provided"}` with no
upstream call: the invalid elements are silently dropped, not individually
rejected. -/
theorem C10_amended (env : Env) (req : ChatRequest) (b : BodyFields)
    (hm : req.method = "POST") (hb : req.body = some b) (hne : b.messages ≠ [])
    (hauth : (0 < b.surveyId ∧ env.sessionActive b.surveyId = true) ∨ env.isAdmin = true)
    (hkey : phpFalsyStr (phpTrim env.apiKey) = false)
    (hinv : ∀ m ∈ b.messages, rawKept m = false) :
    (handleChatRequest env req).status = 400 ∧
    (handleChatRequest env req).body = .errorBody "No valid messages provided" ∧
    (handleChatRequest env req).forwarded = none := by
  simp [handleChatRequest, hm, hb, List.isEmpty_iff, hne, auth_gate_neg hauth, hkey,
    sanitizeMessages_eq_nil hinv]

/-- C10 — witness for the amended theorem. -/
theorem C10_witness :
    (handleChatRequest failEnv allInvalidRequest).status = 400 ∧
    (handleChatRequest failEnv allInvalidRequest).body =
      .errorBody "No valid messages provided" ∧
    (handleChatRequest failEnv allInvalidRequest).forwarded = none :=
  C10_amended failEnv allInvalidRequest _ rfl rfl (by decide) (by decide) (by decide)
    (by decide)

/-! ## Claim C6 -/

/-- C6 — the error taxonomy of the proxy, in the order the source checks
fire: malformed body → 400, empty message list → 400, no session and no
admin → 403, blank credential → 503, all-invalid messages → 400, any
upstream failure (which `callOpenAI` reports for a network error, an empty
response, a non-200 status, or an empty completion) → 502; every failure is
a uniform `{error: string}` body.  The final conjuncts show the three
upstream failure classes all produce the `.error` outcome mapped to 502. -/
theorem C6_error_taxonomy (env : Env) (req : ChatRequest) (b : BodyFields) :
    (req.method = "POST" → req.body = none →
      handleChatRequest env req = ⟨400, .errorBody "Invalid JSON body. Received: ", none⟩) ∧
    (req.method = "POST" → req.body = some b → b.messages = [] →
      handleChatRequest env req = ⟨400, .errorBody "Missing required field: messages", none⟩) ∧
    (req.method = "POST" → req.body = some b → b.messages ≠ [] →
      (decide (0 < b.surveyId) && env.sessionActive b.surveyId) = false →
      env.isAdmin = false →
      handleChatRequest env req =
        ⟨403, .errorBody "No active survey session. Please start the survey first.", none⟩) ∧
    (req.method = "POST" → req.body = some b → b.messages ≠ [] →
      ((0 < b.surveyId ∧ env.sessionActive b.surveyId = true) ∨ env.isAdmin = true) →
      phpFalsyStr (phpTrim env.apiKey) = true →
      handleChatRequest env req =
        ⟨503, .errorBody "The AI service is not configured. Please contact the survey administrator.",
          none⟩) ∧
    (req.method = "POST" → req.body = some b → b.messages ≠ [] →
      ((0 < b.surveyId ∧ env.sessionActive b.surveyId = true) ∨ env.isAdmin = true) →
      phpFalsyStr (phpTrim env.apiKey) = false →
      sanitizeMessages b.messages = [] →
      handleChatRequest env req = ⟨400, .errorBody "No valid messages provided", none⟩) ∧
    (∀ e, req.method = "POST" → req.body = some b → b.messages ≠ [] →
      ((0 < b.surveyId ∧ env.sessionActive b.surveyId = true) ∨ env.isAdmin = true) →
      phpFalsyStr (phpTrim env.apiKey) = false →
      sanitizeMessages b.messages ≠ [] →
      callOpenAI env.curl = .error e →
      handleChatRequest env req =
        ⟨502, .errorBody e,
          some (injectLanguageInstruction (sanitizeMessages b.messages) b.language)⟩) ∧
    (∀ m, callOpenAI (.curlError m) = .error ("Network error contacting AI service: " ++ m)) ∧
    (callOpenAI .noResponse = .error "Empty response from AI service") ∧
    (∀ code parsed, code ≠ 200 → ∃ e, callOpenAI (.response code parsed) = .error e) ∧
    (∀ bdy, phpEmptyContent bdy.choiceContent = true →
      callOpenAI (.response 200 (some bdy)) =
        .error "The AI returned an empty response. Please try again.") := by
  refine ⟨?_, ?_, ?_, ?_, ?_, ?_, ?_, ?_, ?_, ?_⟩
  · intro hm hb
    simp [handleChatRequest, hm, hb]
  · intro hm hb he
    simp [handleChatRequest, hm, hb, he]
  · intro hm hb hne hsess hadmin
    simp [handleChatRequest, hm, hb, List.isEmpty_iff, hne, hsess, hadmin]
  · intro hm hb hne hauth hkey
    simp [handleChatRequest, hm, hb, List.isEmpty_iff, hne, auth_gate_neg hauth, hkey]
  · intro hm hb hne hauth hkey hsan
    simp [handleChatRequest, hm, hb, List.isEmpty_iff, hne, auth_gate_neg hauth, hkey, hsan]
  · intro e hm hb hne hauth hkey hsan hcall
    simp [handleChatRequest, hm, hb, List.isEmpty_iff, hne, auth_gate_neg hauth, hkey, hsan,
      hcall]
  · intro m
    rfl
  · rfl
  · intro code parsed hcode
    refine ⟨"AI service error: " ++
      (match parsed with
       | some bb =>
         match bb.apiErrorMessage with
         | some m => m
         | none => "HTTP " ++ toString code
       | none => "HTTP " ++ toString code), ?_⟩
    simp [callOpenAI, hcode]
  · intro bdy hempty
    simp [callOpenAI, hempty]

/-- C6 — witness: one concrete request per failure class of the taxonomy. -/
theorem C6_witness :
    handleChatRequest noAuthEnv emptyMessagesRequest =
      ⟨400, .errorBody "Missing required field: messages", none⟩ ∧
    handleChatRequest noAuthEnv userMsgRequest =
      ⟨403, .errorBody "No active survey session. Please start the survey first.", none⟩ ∧
    handleChatRequest noKeyEnv userMsgRequest =
      ⟨503, .errorBody "The AI service is not configured. Please contact the survey administrator.",
        none⟩ ∧
    handleChatRequest failEnv userMsgRequest =
      ⟨502, .errorBody "Network error contacting AI service: boom",
        some (injectLanguageInstruction
          (sanitizeMessages [.pair (.str "user") "Hi".toList]) "en".toList)⟩ :=
  ⟨(C6_error_taxonomy noAuthEnv emptyMessagesRequest
      { surveyId := 1, messages := [], maxTokens := 6000, language := "en".toList }).2.1
      rfl rfl rfl,
   (C6_error_taxonomy noAuthEnv userMsgRequest
      { surveyId := 1, messages := [.pair (.str "user") "Hi".toList], maxTokens := 6000,
        language := "en".toList }).2.2.1 rfl rfl (by decide) (by decide) rfl,
   (C6_error_taxonomy noKeyEnv userMsgRequest
      { surveyId := 1, messages := [.pair (.str "user") "Hi".toList], maxTokens := 6000,
        language := "en".toList }).2.2.2.1 rfl rfl (by decide) (by decide) (by decide),
   (C6_error_taxonomy failEnv userMsgRequest
      { surveyId := 1, messages := [.pair (.str "user") "Hi".toList], maxTokens := 6000,
        language := "en".toList }).2.2.2.2.2.1 _ rfl rfl (by decide) (by decide) (by decide)
      (by decide) rfl⟩

/-! ## Claim C7 -/

/-- C7 — whenever the proxy makes an upstream call, the forwarded list is
the sanitized list after language injection, and the injection has the
stated shape: with no system message present, a fresh system message
carrying the instruction is prepended; otherwise the instruction is
prepended to the content of the first system message. -/
theorem C7_language_injection (env : Env) (req : ChatRequest) (b : BodyFields)
    (hb : req.body = some b)
    (hcall : (handleChatRequest env req).forwarded ≠ none) :
    (handleChatRequest env req).forwarded =
      some (injectLanguageInstruction (sanitizeMessages b.messages) b.language) ∧
    ((∀ m ∈ sanitizeMessages b.messages, m.role ≠ "system") →
      injectLanguageInstruction (sanitizeMessages b.messages) b.language =
        ⟨"system", langInstruction (sanitizeLang b.language)⟩ :: sanitizeMessages b.messages) ∧
    (∀ pre s post, sanitizeMessages b.messages = pre ++ s :: post →
      (∀ m ∈ pre, m.role ≠ "system") → s.role = "system" →
      injectLanguageInstruction (sanitizeMessages b.messages) b.language =
        pre ++ { s with content :=
          langInstruction (sanitizeLang b.language) ++ '\n' :: '\n' :: s.content } :: post) := by
  refine ⟨?_, ?_, ?_⟩
  · cases hmeth : req.method == "POST" with
    | false => simp [handleChatRequest, hmeth] at hcall
    | true =>
      cases hemp : b.messages.isEmpty with
      | true => simp [handleChatRequest, hmeth, hb, hemp] at hcall
      | false =>
        by_cases hauth : (b.surveyId ≤ 0 ∨ env.sessionActive b.surveyId = false) ∧
            env.isAdmin = false
        · simp [handleChatRequest, hmeth, hb, hemp, hauth] at hcall
        · cases hkey : phpFalsyStr (phpTrim env.apiKey) with
          | true => simp [handleChatRequest, hmeth, hb, hemp, hauth, hkey] at hcall
          | false =>
            cases hsan : (sanitizeMessages b.messages).isEmpty with
            | true => simp [handleChatRequest, hmeth, hb, hemp, hauth, hkey, hsan] at hcall
            | false =>
              cases hc : callOpenAI env.curl with
              | error e => simp [handleChatRequest, hmeth, hb, hemp, hauth, hkey, hsan, hc]
              | ok r => simp [handleChatRequest, hmeth, hb, hemp, hauth, hkey, hsan, hc]
  · intro hnosys
    rw [injectLanguageInstruction, injectGo_eq_none hnosys]
  · intro pre s post heq hpre hs
    rw [injectLanguageInstruction, heq, injectGo_split hpre hs]

/-- C7 — witness: a successfully authorized request with no system message
gets the fresh instruction-carrying system message prepended. -/
theorem C7_witness :
    (handleChatRequest failEnv userMsgRequest).forwarded =
      some (injectLanguageInstruction
        (sanitizeMessages [.pair (.str "user") "Hi".toList]) "en".toList) ∧
    injectLanguageInstruction (sanitizeMessages [.pair (.str "user") "Hi".toList]) "en".toList =
      ⟨"system", langInstruction (sanitizeLang "en".toList)⟩ ::
        sanitizeMessages [.pair (.str "user") "Hi".toList] :=
  ⟨(C7_language_injection failEnv userMsgRequest
      { surveyId := 1, messages := [.pair (.str "user") "Hi".toList], maxTokens := 6000,
        language := "en".toList } rfl (by decide)).1,
   (C7_language_injection failEnv userMsgRequest
      { surveyId := 1, messages := [.pair (.str "user") "Hi".toList], maxTokens := 6000,
        language := "en".toList } rfl (by decide)).2.1 (by decide)⟩

/-! ## Widget step lemmas -/

lemma finished_finishInterview (s : WState) : (finishInterview s).finished = true := by
  rw [finishInterview]
  split
  · next h => exact h
  · rfl

lemma tokensUsed_finishInterview (s : WState) :
    (finishInterview s).tokensUsed = s.tokensUsed := by
  rw [finishInterview]
  split <;> rfl

lemma tokensUsed_checkTokenBudget (maxTokens : Nat) (s : WState) :
    (checkTokenBudget maxTokens s).tokensUsed = s.tokensUsed := by
  rw [checkTokenBudget]
  split
  · exact tokensUsed_finishInterview s
  · rfl

lemma finished_checkTokenBudget (maxTokens : Nat) (s : WState) :
    (checkTokenBudget maxTokens s).finished =
      (s.finished || decide (maxTokens ≤ s.tokensUsed)) := by
  rw [checkTokenBudget]
  split
  · next h => rw [finished_finishInterview]; simp [h]
  · next h => simp [h]

lemma tokensUsed_onAssistantReply (maxTokens : Nat) (b : Bool) (s : WState)
    (r : List Char) (t : Nat) :
    (onAssistantReply maxTokens b s r t).tokensUsed = s.tokensUsed + t := by
  simp only [onAssistantReply, updateAnswerField]
  rw [tokensUsed_checkTokenBudget]
  split <;> rfl

lemma finished_onAssistantReply (maxTokens : Nat) (b : Bool) (s : WState)
    (r : List Char) (t : Nat) :
    (onAssistantReply maxTokens b s r t).finished =
      (s.finished || decide (maxTokens ≤ s.tokensUsed + t)) := by
  simp only [onAssistantReply, updateAnswerField]
  rw [finished_checkTokenBudget]
  split <;> rfl

lemma tokensUsed_sendUserMessage (s : WState) (text : List Char) :
    (sendUserMessage s text).tokensUsed = s.tokensUsed := by
  rw [sendUserMessage]
  split
  · rfl
  · dsimp only
    split <;> rfl

lemma finished_sendUserMessage (s : WState) (text : List Char) :
    (sendUserMessage s text).finished = s.finished := by
  rw [sendUserMessage]
  split
  · rfl
  · dsimp only
    split <;> rfl

lemma openingPending_finishInterview (s : WState) :
    (finishInterview s).openingPending = s.openingPending := by
  rw [finishInterview]; split <;> rfl

lemma awaitingReply_finishInterview (s : WState) :
    (finishInterview s).awaitingReply = s.awaitingReply := by
  rw [finishInterview]; split <;> rfl

lemma errorVisible_finishInterview (s : WState) :
    (finishInterview s).errorVisible = s.errorVisible := by
  rw [finishInterview]; split <;> rfl

/-- Full characterisation of the shared success-callback body: the in-flight
flags pass through, one assistant bubble and one `Interviewer: ` line are
appended, the answer field tracks the transcript, the finished flag absorbs
the budget check, and the transcript optionally gains the concluded marker
exactly when the budget check fires on an unfinished widget. -/
lemma onAssistantReply_spec (maxTokens : Nat) (b : Bool) (s : WState)
    (r : List Char) (t : Nat) :
    ((onAssistantReply maxTokens b s r t).openingPending = s.openingPending ∧
     (onAssistantReply maxTokens b s r t).awaitingReply = s.awaitingReply ∧
     (onAssistantReply maxTokens b s r t).errorVisible = s.errorVisible ∧
     (onAssistantReply maxTokens b s r t).displayed = s.displayed ++ [("assistant", r)] ∧
     (onAssistantReply maxTokens b s r t).answerField =
       joinNl (onAssistantReply maxTokens b s r t).transcriptLines ∧
     (onAssistantReply maxTokens b s r t).finished =
       (s.finished || decide (maxTokens ≤ s.tokensUsed + t))) ∧
    ((onAssistantReply maxTokens b s r t).transcriptLines =
        s.transcriptLines ++ [interviewerTag ++ r] ∧
        (onAssistantReply maxTokens b s r t).finished = s.finished ∨
     (onAssistantReply maxTokens b s r t).transcriptLines =
        (s.transcriptLines ++ [interviewerTag ++ r]) ++ [[], markerLine] ∧
        (onAssistantReply maxTokens b s r t).finished = true ∧ s.finished = false) := by
  by_cases hbud : maxTokens ≤ s.tokensUsed + t
  · by_cases hf : s.finished = true
    · cases b <;>
        simp [onAssistantReply, checkTokenBudget, finishInterview, updateAnswerField, hbud, hf]
    · cases b <;>
        simp [onAssistantReply, checkTokenBudget, finishInterview, updateAnswerField, hbud, hf]
  · cases b <;>
      simp [onAssistantReply, checkTokenBudget, finishInterview, updateAnswerField, hbud]

/-! ## Transcript-line counting -/

lemma userTag_not_prefix_interviewer (r : List Char) :
    userTag.isPrefixOf (interviewerTag ++ r) = false := rfl

lemma isPrefixOf_append_self (l t : List Char) : l.isPrefixOf (l ++ t) = true := by
  induction l with
  | nil => cases t <;> rfl
  | cons c cs ih =>
    rw [List.cons_append, List.isPrefixOf_cons₂_self]
    exact ih

lemma userTag_prefix_self (t : List Char) : userTag.isPrefixOf (userTag ++ t) = true :=
  isPrefixOf_append_self userTag t

lemma userTag_not_prefix_nil : userTag.isPrefixOf ([] : List Char) = false := rfl

lemma userTag_not_prefix_marker : userTag.isPrefixOf markerLine = false := rfl

lemma countUserLines_append (l1 l2 : List (List Char)) :
    countUserLines (l1 ++ l2) = countUserLines l1 + countUserLines l2 := by
  simp [countUserLines, List.filter_append]

lemma countUserLines_interviewer (r : List Char) :
    countUserLines [interviewerTag ++ r] = 0 := by
  simp [countUserLines, List.filter, userTag_not_prefix_interviewer]

lemma countUserLines_user (t : List Char) : countUserLines [userTag ++ t] = 1 := by
  simp [countUserLines, List.filter, userTag_prefix_self]

lemma countUserLines_finishLines : countUserLines [[], markerLine] = 0 := rfl

lemma countUserLines_finishInterview (s : WState) :
    countUserLines (finishInterview s).transcriptLines =
      countUserLines s.transcriptLines := by
  rw [finishInterview]; split
  · rfl
  · show countUserLines (s.transcriptLines ++ [[], markerLine]) = _
    rw [countUserLines_append, countUserLines_finishLines]
    omega

lemma countUserLines_onAssistantReply (maxTokens : Nat) (b : Bool) (s : WState)
    (r : List Char) (t : Nat) :
    countUserLines (onAssistantReply maxTokens b s r t).transcriptLines =
      countUserLines s.transcriptLines := by
  rcases (onAssistantReply_spec maxTokens b s r t).2 with ⟨htr, -⟩ | ⟨htr, -, -⟩ <;> rw [htr]
  · rw [countUserLines_append, countUserLines_interviewer]
    omega
  · rw [countUserLines_append, countUserLines_append, countUserLines_interviewer,
      countUserLines_finishLines]
    omega

/-! ## Claim C8 -/

lemma mandatoryInv_step (maxTokens : Nat) (s : WState) (e : WEvent)
    (hs : MandatoryInv s) : MandatoryInv (step maxTokens s e) := by
  obtain ⟨hA, hB, hC, hD⟩ := hs
  cases e with
  | openOk r t =>
    rw [step]
    split
    · next hop =>
      obtain ⟨htr, hev, haw, hbtn⟩ := hA hop
      obtain ⟨⟨hop', haw', hev', -, -, -⟩, hcase⟩ :=
        onAssistantReply_spec maxTokens true { s with openingPending := false } r t
      refine ⟨?_, ?_, ?_, ?_⟩
      · intro h; rw [hop'] at h; simp at h
      · intro hf hcu
        rcases hcase with ⟨htr', hfin'⟩ | ⟨-, hfin', -⟩
        · rw [htr']
          show (s.transcriptLines ++ [interviewerTag ++ r]).length ≤ 1
          simp [htr]
        · rw [hf] at hfin'; cases hfin'
      · intro hf hcu h; rw [hev'] at h; simp [hev] at h
      · intro h; rw [haw'] at h; simp [haw] at h
    · exact ⟨hA, hB, hC, hD⟩
  | openErr =>
    rw [step]
    split
    · next hop =>
      obtain ⟨htr, hev, haw, hbtn⟩ := hA hop
      refine ⟨?_, ?_, ?_, ?_⟩
      · intro h; simp at h
      · intro _ _; simp [htr]
      · intro _ _ _; simp [htr]
      · intro h; simp [haw] at h
    · exact ⟨hA, hB, hC, hD⟩
  | userSend text =>
    rw [step, sendUserMessage]
    split
    · exact ⟨hA, hB, hC, hD⟩
    · next hguard =>
      dsimp only
      split
      · exact ⟨hA, hB, hC, hD⟩
      · simp only [Bool.or_eq_true, not_or, Bool.not_eq_true] at hguard
        obtain ⟨⟨hfin0, hop0⟩, haw0⟩ := hguard
        refine ⟨?_, ?_, ?_, ?_⟩
        · intro h
          have h2 : s.openingPending = true := h
          rw [hop0] at h2; cases h2
        · intro hf hcu
          have hcu2 : countUserLines (s.transcriptLines ++ [userTag ++ jsTrim text]) = 0 := hcu
          rw [countUserLines_append, countUserLines_user] at hcu2
          omega
        · intro hf hcu _
          have hcu2 : countUserLines (s.transcriptLines ++ [userTag ++ jsTrim text]) = 0 := hcu
          rw [countUserLines_append, countUserLines_user] at hcu2
          omega
        · intro _
          show 1 ≤ countUserLines (s.transcriptLines ++ [userTag ++ jsTrim text])
          rw [countUserLines_append, countUserLines_user]
          omega
  | sendOk r t =>
    rw [step]
    split
    · next haw =>
      have hcu1 := hD haw
      obtain ⟨⟨hop', haw', hev', -, -, -⟩, -⟩ :=
        onAssistantReply_spec maxTokens false { s with awaitingReply := false } r t
      refine ⟨?_, ?_, ?_, ?_⟩
      · intro h
        rw [hop'] at h
        have := (hA h).2.2.1
        rw [this] at haw; cases haw
      · intro hf hcu
        rw [countUserLines_onAssistantReply] at hcu
        have hcu2 : countUserLines s.transcriptLines = 0 := hcu
        omega
      · intro hf hcu _
        rw [countUserLines_onAssistantReply] at hcu
        have hcu2 : countUserLines s.transcriptLines = 0 := hcu
        omega
      · intro h; rw [haw'] at h; simp at h
    · exact ⟨hA, hB, hC, hD⟩
  | sendErr =>
    rw [step]
    split
    · next haw =>
      have hcu1 := hD haw
      refine ⟨?_, ?_, ?_, ?_⟩
      · intro h
        have := (hA h).2.2.1
        rw [this] at haw; cases haw
      · intro hf hcu
        have hcu2 : countUserLines s.transcriptLines = 0 := hcu
        omega
      · intro hf hcu _
        have hcu2 : countUserLines s.transcriptLines = 0 := hcu
        omega
      · intro h; simp at h
    · exact ⟨hA, hB, hC, hD⟩
  | retryOk r t =>
    rw [step]
    split
    · next hev =>
      obtain ⟨⟨hop', haw', hev', -, -, hfin'⟩, hcase⟩ :=
        onAssistantReply_spec maxTokens true { s with errorVisible := false } r t
      refine ⟨?_, ?_, ?_, ?_⟩
      · intro h
        rw [hop'] at h
        have := (hA h).2.1
        rw [this] at hev; cases hev
      · intro hf hcu
        have hsf : s.finished = false := by
          rw [hfin'] at hf
          simpa using (Bool.or_eq_false_iff.mp hf).1
        rw [countUserLines_onAssistantReply] at hcu
        have hlen := hC hsf hcu hev
        rcases hcase with ⟨htr', -⟩ | ⟨-, hfin2, -⟩
        · rw [htr']
          show (s.transcriptLines ++ [interviewerTag ++ r]).length ≤ 1
          rw [List.length_append, hlen]
          simp
        · rw [hf] at hfin2; cases hfin2
      · intro hf hcu h; rw [hev'] at h; simp at h
      · intro h
        rw [haw'] at h
        have := hD h
        rw [countUserLines_onAssistantReply]
        exact this
    · exact ⟨hA, hB, hC, hD⟩
  | retryErr => exact ⟨hA, hB, hC, hD⟩
  | finishClick =>
    rw [step]
    split
    · next hbtn =>
      refine ⟨?_, ?_, ?_, ?_⟩
      · intro h
        rw [openingPending_finishInterview] at h
        have := (hA h).2.2.2
        rw [this] at hbtn; cases hbtn
      · intro hf; rw [finished_finishInterview] at hf; cases hf
      · intro hf; rw [finished_finishInterview] at hf; cases hf
      · intro h
        rw [awaitingReply_finishInterview] at h
        rw [countUserLines_finishInterview]
        exact hD h
    · exact ⟨hA, hB, hC, hD⟩
  | skipClick =>
    rw [step]
    split
    · next hev =>
      refine ⟨?_, ?_, ?_, ?_⟩
      · intro h
        have := (hA h).2.1
        rw [this] at hev; cases hev
      · intro hf; simp [skipInterview] at hf
      · intro hf; simp [skipInterview] at hf
      · intro h
        show 1 ≤ countUserLines s.transcriptLines
        exact hD h
    · exact ⟨hA, hB, hC, hD⟩

lemma mandatoryInv_runTrace (maxTokens : Nat) (trace : List WEvent) (s : WState)
    (hs : MandatoryInv s) : MandatoryInv (runTrace maxTokens s trace) := by
  induction trace generalizing s with
  | nil => exact hs
  | cons e tr ih => exact ih _ (mandatoryInv_step maxTokens s e hs)

lemma mandatoryInv_init (hasPrompt : Bool) : MandatoryInv (initWidget hasPrompt) := by
  unfold MandatoryInv
  cases hasPrompt <;> decide

/-- C8 — in every reachable widget state that is not finished and has no
recorded user exchange (no `User: ` transcript line), the mandatory
submit-blocking condition `!finished && transcriptLines.length < 2` holds,
so the host form cannot be submitted. -/
theorem C8_mandatory_gate (maxTokens : Nat) (hasPrompt : Bool) (trace : List WEvent)
    (hf : (runTrace maxTokens (initWidget hasPrompt) trace).finished = false)
    (hcu : countUserLines (runTrace maxTokens (initWidget hasPrompt) trace).transcriptLines = 0) :
    mandatoryBlocksSubmit (runTrace maxTokens (initWidget hasPrompt) trace) = true := by
  obtain ⟨-, hB, -, -⟩ :=
    mandatoryInv_runTrace maxTokens trace (initWidget hasPrompt) (mandatoryInv_init hasPrompt)
  have hlen := hB hf hcu
  rw [mandatoryBlocksSubmit, hf]
  simp
  omega

/-- C8 — witness: after the opening reply alone (no user exchange) the
submit event is still blocked. -/
theorem C8_witness :
    (runTrace 6000 (initWidget true) [.openOk "Hi".toList 5]).finished = false ∧
    countUserLines (runTrace 6000 (initWidget true) [.openOk "Hi".toList 5]).transcriptLines = 0 ∧
    mandatoryBlocksSubmit (runTrace 6000 (initWidget true) [.openOk "Hi".toList 5]) = true :=
  ⟨by decide, by decide,
    C8_mandatory_gate 6000 true [.openOk "Hi".toList 5] (by decide) (by decide)⟩

/-! ## Claim C2 -/

lemma tokensUsed_step_mono (maxTokens : Nat) (s : WState) (e : WEvent) :
    s.tokensUsed ≤ (step maxTokens s e).tokensUsed := by
  cases e with
  | openOk r t =>
    rw [step]
    split
    · rw [tokensUsed_onAssistantReply]; exact Nat.le_add_right _ _
    · exact Nat.le_refl _
  | openErr => rw [step]; split <;> exact Nat.le_refl _
  | userSend text => rw [step, tokensUsed_sendUserMessage]
  | sendOk r t =>
    rw [step]
    split
    · rw [tokensUsed_onAssistantReply]; exact Nat.le_add_right _ _
    · exact Nat.le_refl _
  | sendErr => rw [step]; split <;> exact Nat.le_refl _
  | retryOk r t =>
    rw [step]
    split
    · rw [tokensUsed_onAssistantReply]; exact Nat.le_add_right _ _
    · exact Nat.le_refl _
  | retryErr => exact Nat.le_refl _
  | finishClick =>
    rw [step]
    split
    · rw [tokensUsed_finishInterview]
    · exact Nat.le_refl _
  | skipClick => rw [step]; split <;> exact Nat.le_refl _

lemma budgetInv_onAssistantReply (maxTokens : Nat) (b : Bool) (s : WState)
    (r : List Char) (t : Nat) (hs : BudgetInv maxTokens s) :
    BudgetInv maxTokens (onAssistantReply maxTokens b s r t) := by
  unfold BudgetInv at hs ⊢
  rw [finished_onAssistantReply, tokensUsed_onAssistantReply]
  simp only [Bool.or_eq_true, decide_eq_true_eq]
  constructor
  · rintro (hf | hle)
    · exact Nat.le_trans (hs.mp hf) (Nat.le_add_right _ _)
    · exact hle
  · exact fun hle => Or.inr hle

lemma budgetInv_step (maxTokens : Nat) (s : WState) (e : WEvent)
    (he : isExplicitEnd e = false) (hs : BudgetInv maxTokens s) :
    BudgetInv maxTokens (step maxTokens s e) := by
  cases e with
  | openOk r t =>
    rw [step]
    split
    · exact budgetInv_onAssistantReply maxTokens true _ r t hs
    · exact hs
  | openErr => rw [step]; split <;> exact hs
  | userSend text =>
    unfold BudgetInv at hs ⊢
    rw [step, finished_sendUserMessage, tokensUsed_sendUserMessage]
    exact hs
  | sendOk r t =>
    rw [step]
    split
    · exact budgetInv_onAssistantReply maxTokens false _ r t hs
    · exact hs
  | sendErr => rw [step]; split <;> exact hs
  | retryOk r t =>
    rw [step]
    split
    · exact budgetInv_onAssistantReply maxTokens true _ r t hs
    · exact hs
  | retryErr => exact hs
  | finishClick => simp [isExplicitEnd] at he
  | skipClick => simp [isExplicitEnd] at he

lemma budgetInv_runTrace (maxTokens : Nat) (trace : List WEvent) (s : WState)
    (ht : trace.all (fun e => !isExplicitEnd e) = true) (hs : BudgetInv maxTokens s) :
    BudgetInv maxTokens (runTrace maxTokens s trace) := by
  induction trace generalizing s with
  | nil => exact hs
  | cons e tr ih =>
    rw [List.all_cons, Bool.and_eq_true, Bool.not_eq_true'] at ht
    exact ih _ ht.2 (budgetInv_step maxTokens s e ht.1 hs)

/-- C2 — the token counter never decreases at any step of the widget, and
over any run made of exchanges and errors (no explicit Finish or Skip
click) the widget is in the finished state exactly when the accumulated
counter has reached or exceeded the configured budget — in particular the
transition happens at the first exchange that pushes the counter over,
since every prefix of such a run is such a run. -/
theorem C2_token_budget (maxTokens : Nat) (hmax : 1 ≤ maxTokens) :
    (∀ (s : WState) (e : WEvent), s.tokensUsed ≤ (step maxTokens s e).tokensUsed) ∧
    (∀ (hasPrompt : Bool) (trace : List WEvent),
      trace.all (fun e => !isExplicitEnd e) = true →
      ((runTrace maxTokens (initWidget hasPrompt) trace).finished = true ↔
        maxTokens ≤ (runTrace maxTokens (initWidget hasPrompt) trace).tokensUsed)) := by
  refine ⟨tokensUsed_step_mono maxTokens, ?_⟩
  intro hp trace ht
  refine budgetInv_runTrace maxTokens trace _ ht ?_
  unfold BudgetInv
  simp only [initWidget]
  constructor
  · intro h; exact absurd h (by simp)
  · intro h; omega

/-- C2 — witness: the monotonicity of one concrete step, and the budget
cutoff firing exactly on the reply that crosses 6000 tokens. -/
theorem C2_witness :
    ((initWidget true).tokensUsed ≤
      (step 6000 (initWidget true) (.openOk "A".toList 3000)).tokensUsed) ∧
    ((runTrace 6000 (initWidget true) budgetExhaustTrace).finished = true ↔
      6000 ≤ (runTrace 6000 (initWidget true) budgetExhaustTrace).tokensUsed) :=
  ⟨(C2_token_budget 6000 (by decide)).1 (initWidget true) (.openOk "A".toList 3000),
   (C2_token_budget 6000 (by decide)).2 true budgetExhaustTrace (by decide)⟩

/-! ## Newline-freeness -/

lemma contains_eq_false_iff (l : List Char) (c : Char) : l.contains c = false ↔ c ∉ l := by
  constructor
  · intro h hm
    have helem : l.elem c = true := List.elem_iff.mpr hm
    rw [show l.contains c = l.elem c from rfl, helem] at h
    cases h
  · intro hm
    cases h : l.contains c
    · rfl
    · exact absurd (List.elem_iff.mp h) hm

lemma noNl_iff (l : List Char) : noNl l = true ↔ '\n' ∉ l := by
  rw [noNl, Bool.not_eq_true']
  exact contains_eq_false_iff l '\n'

lemma noNl_append_true {a b : List Char} (ha : noNl a = true) (hb : noNl b = true) :
    noNl (a ++ b) = true := by
  rw [noNl_iff] at ha hb ⊢
  intro h
  rcases List.mem_append.mp h with h | h
  exacts [ha h, hb h]

lemma noNl_interviewerTag : noNl interviewerTag = true := by decide

lemma noNl_userTag : noNl userTag = true := by decide

lemma noNl_marker : noNl markerLine = true := by decide

lemma noNl_displayLine (b : String × List Char) (h : noNl b.2 = true) :
    noNl (displayLine b) = true := by
  rw [displayLine]
  split
  · exact noNl_append_true noNl_interviewerTag h
  · exact noNl_append_true noNl_userTag h

lemma noNl_jsTrim (l : List Char) (h : noNl l = true) : noNl (jsTrim l) = true := by
  rw [noNl_iff] at h ⊢
  intro hmem
  apply h
  rw [jsTrim, List.mem_reverse] at hmem
  have h2 := (List.dropWhile_sublist jsIsSpace).subset hmem
  rw [List.mem_reverse] at h2
  exact (List.dropWhile_sublist jsIsSpace).subset h2

/-! ## Splitting and joining transcripts -/

lemma splitNl_ne_nil (s : List Char) : splitNl s ≠ [] := by
  cases s with
  | nil => simp [splitNl]
  | cons c rest =>
    rw [splitNl]
    cases hsp : splitNl rest with
    | nil => simp
    | cons a t => by_cases hc : c = '\n' <;> simp [hc]

lemma splitNl_noNl (l : List Char) (h : noNl l = true) : splitNl l = [l] := by
  induction l with
  | nil => rfl
  | cons c cs ih =>
    rw [noNl_iff, List.mem_cons, not_or] at h
    have hc : ¬(c = '\n') := fun hh => h.1 hh.symm
    have hcs : noNl cs = true := (noNl_iff cs).mpr h.2
    rw [splitNl, ih hcs]
    simp [hc]

lemma splitNl_append (l rest : List Char) (h : noNl l = true) :
    splitNl (l ++ '\n' :: rest) = l :: splitNl rest := by
  induction l with
  | nil =>
    rw [List.nil_append, splitNl]
    cases hsp : splitNl rest with
    | nil => exact absurd hsp (splitNl_ne_nil rest)
    | cons a t => simp
  | cons c cs ih =>
    rw [noNl_iff, List.mem_cons, not_or] at h
    have hc : ¬(c = '\n') := fun hh => h.1 hh.symm
    have hcs : noNl cs = true := (noNl_iff cs).mpr h.2
    rw [List.cons_append, splitNl, ih hcs]
    simp [hc]

lemma joinNl_cons_of_ne_nil (a : List Char) (rest : List (List Char)) (h : rest ≠ []) :
    joinNl (a :: rest) = a ++ '\n' :: joinNl rest := by
  cases rest with
  | nil => cases h rfl
  | cons b t => rfl

lemma splitNl_joinNl (ls : List (List Char)) (hne : ls ≠ [])
    (h : ∀ l ∈ ls, noNl l = true) : splitNl (joinNl ls) = ls := by
  induction ls with
  | nil => cases hne rfl
  | cons l ls2 ih =>
    cases ls2 with
    | nil => exact splitNl_noNl l (h l (by simp))
    | cons l2 ls3 =>
      rw [joinNl_cons_of_ne_nil l (l2 :: ls3) (by simp)]
      rw [splitNl_append l _ (h l (by simp))]
      rw [ih (by simp) fun x hx => h x (by simp [hx])]

lemma head?_joinNl (l : List Char) (ls : List (List Char)) (h : l ≠ []) :
    (joinNl (l :: ls)).head? = l.head? := by
  cases ls with
  | nil => rfl
  | cons l2 ls2 =>
    rw [joinNl_cons_of_ne_nil l (l2 :: ls2) (by simp), List.head?_append]
    cases l with
    | nil => cases h rfl
    | cons c cs => rfl

lemma getLast?_joinNl (ls : List (List Char)) (l : List Char) (x : Char)
    (h : l.getLast? = some x) : (joinNl (ls ++ [l])).getLast? = some x := by
  induction ls with
  | nil => exact h
  | cons a ls2 ih =>
    rw [List.cons_append, joinNl_cons_of_ne_nil a _ (by simp), List.getLast?_append]
    rw [show ('\n' :: joinNl (ls2 ++ [l])) = ['\n'] ++ joinNl (ls2 ++ [l]) from rfl,
      List.getLast?_append, ih]
    rfl

/-! ## Trim-stability of a finished transcript -/

lemma dropWhile_eq_self_of_head (p : Char → Bool) (l : List Char)
    (h : ∀ c, l.head? = some c → p c = false) : l.dropWhile p = l := by
  cases l with
  | nil => rfl
  | cons c rest =>
    rw [List.dropWhile_cons, h c rfl]
    simp

lemma jsTrim_eq_self (l : List Char)
    (hhead : ∀ c, l.head? = some c → jsIsSpace c = false)
    (hlast : ∀ c, l.getLast? = some c → jsIsSpace c = false) :
    jsTrim l = l := by
  rw [jsTrim, dropWhile_eq_self_of_head _ _ hhead,
    dropWhile_eq_self_of_head _ _ fun c hc => hlast c (by rwa [List.head?_reverse] at hc),
    List.reverse_reverse]

lemma head?_displayLine (b : String × List Char) :
    ∃ c, (displayLine b).head? = some c ∧ jsIsSpace c = false := by
  rw [displayLine]
  split
  · exact ⟨'I', rfl, by decide⟩
  · exact ⟨'U', rfl, by decide⟩

lemma displayLine_ne_nil (b : String × List Char) : displayLine b ≠ [] := by
  rw [displayLine]
  split <;> intro h <;> cases List.append_eq_nil.mp h with
  | intro h1 h2 => cases h1

/-! ## Parsing back a transcript -/

lemma interviewerTag_not_prefix_user (c : List Char) :
    interviewerTag.isPrefixOf (userTag ++ c) = false := rfl

lemma parseTranscriptLine_displayLine (b : String × List Char)
    (hb : b.1 = "assistant" ∨ b.1 = "user") :
    parseTranscriptLine (displayLine b) = some b := by
  rcases hb with h | h
  · have hdl : displayLine b = interviewerTag ++ b.2 := by
      rw [displayLine, if_pos (by simp [h])]
    rw [hdl, parseTranscriptLine, if_pos (isPrefixOf_append_self _ _)]
    rw [show (13 : Nat) = interviewerTag.length from rfl, List.drop_left, ← h]
  · have hdl : displayLine b = userTag ++ b.2 := by
      rw [displayLine, if_neg (by simp [h])]
    rw [hdl, parseTranscriptLine, if_neg (by simp [interviewerTag_not_prefix_user]),
      if_pos (isPrefixOf_append_self _ _)]
    rw [show (6 : Nat) = userTag.length from rfl, List.drop_left, ← h]

lemma parseTranscriptLine_nil : parseTranscriptLine [] = none := rfl

lemma parseTranscriptLine_marker : parseTranscriptLine markerLine = none := by decide

lemma filterMap_parse_displayLines (ds : List (String × List Char))
    (h : ∀ b ∈ ds, b.1 = "assistant" ∨ b.1 = "user") :
    (ds.map displayLine).filterMap parseTranscriptLine = ds := by
  induction ds with
  | nil => rfl
  | cons d ds2 ih =>
    rw [List.map_cons, List.filterMap_cons_some (parseTranscriptLine_displayLine d (h d (by simp)))]
    rw [ih fun b hb => h b (by simp [hb])]

/-! ## The transcript invariant -/

lemma transcriptInv_init (hasPrompt : Bool) : TranscriptInv (initWidget hasPrompt) := by
  unfold TranscriptInv
  cases hasPrompt <;> decide

lemma transcriptInv_reply (maxTokens : Nat) (bBtn : Bool) (s : WState)
    (r : List Char) (t : Nat)
    (hr : noNl r = true) (hnotfin : s.finished = false) (hs : TranscriptInv s) :
    TranscriptInv (onAssistantReply maxTokens bBtn s r t) := by
  obtain ⟨hRoles, hUnfin, hFin⟩ := hs
  obtain ⟨⟨-, -, -, hdisp, hans, -⟩, hcase⟩ := onAssistantReply_spec maxTokens bBtn s r t
  have htrS : s.transcriptLines = s.displayed.map displayLine := hUnfin hnotfin
  refine ⟨?_, ?_, ?_⟩
  · intro b hb
    rw [hdisp] at hb
    rcases List.mem_append.mp hb with hb | hb
    · exact hRoles b hb
    · obtain rfl := List.mem_singleton.mp hb
      exact ⟨Or.inl rfl, hr⟩
  · intro hf
    rcases hcase with ⟨htr, -⟩ | ⟨-, hfin, -⟩
    · rw [htr, hdisp, htrS, List.map_append]
      rfl
    · rw [hfin] at hf; cases hf
  · intro hf
    rcases hcase with ⟨-, hfin⟩ | ⟨htr, -, -⟩
    · rw [hfin] at hf
      have : s.finished = true := hf
      rw [hnotfin] at this; cases this
    · refine ⟨?_, hans⟩
      rw [htr, hdisp, htrS, List.map_append]
      rfl

lemma transcriptInv_step (maxTokens : Nat) (s : WState) (e : WEvent)
    (hclean : eventClean e = true) (hnoskip : isSkipEvent e = false)
    (hpf : s.finished = true → isReplyEvent e = false)
    (hs : TranscriptInv s) : TranscriptInv (step maxTokens s e) := by
  have hnotfin_of_reply : isReplyEvent e = true → s.finished = false := by
    intro hre
    cases hsf : s.finished
    · rfl
    · rw [hpf hsf] at hre; cases hre
  cases e with
  | openOk r t =>
    rw [step]
    split
    · exact transcriptInv_reply maxTokens true _ r t (by simpa [eventClean] using hclean)
        (hnotfin_of_reply rfl) hs
    · exact hs
  | openErr => rw [step]; split <;> exact hs
  | userSend text =>
    rw [step, sendUserMessage]
    split
    · exact hs
    · next hguard =>
      dsimp only
      split
      · exact hs
      · obtain ⟨hRoles, hUnfin, hFin⟩ := hs
        have hfin0 : s.finished = false := by
          simp only [Bool.or_eq_true, not_or, Bool.not_eq_true] at hguard
          exact hguard.1.1
        have ht : noNl (jsTrim text) = true :=
          noNl_jsTrim text (by simpa [eventClean] using hclean)
        refine ⟨?_, ?_, ?_⟩
        · intro b hb
          have hb2 : b ∈ s.displayed ++ [("user", jsTrim text)] := hb
          rcases List.mem_append.mp hb2 with h | h
          · exact hRoles b h
          · obtain rfl := List.mem_singleton.mp h
            exact ⟨Or.inr rfl, ht⟩
        · intro _
          show s.transcriptLines ++ [userTag ++ jsTrim text] =
            (s.displayed ++ [("user", jsTrim text)]).map displayLine
          rw [hUnfin hfin0, List.map_append]
          rfl
        · intro hf
          have h2 : s.finished = true := hf
          rw [hfin0] at h2; cases h2
  | sendOk r t =>
    rw [step]
    split
    · exact transcriptInv_reply maxTokens false _ r t (by simpa [eventClean] using hclean)
        (hnotfin_of_reply rfl) hs
    · exact hs
  | sendErr => rw [step]; split <;> exact hs
  | retryOk r t =>
    rw [step]
    split
    · exact transcriptInv_reply maxTokens true _ r t (by simpa [eventClean] using hclean)
        (hnotfin_of_reply rfl) hs
    · exact hs
  | retryErr => exact hs
  | finishClick =>
    rw [step]
    split
    · rw [finishInterview]
      split
      · exact hs
      · next hnf =>
        obtain ⟨hRoles, hUnfin, hFin⟩ := hs
        have hfin0 : s.finished = false := by
          cases hsf : s.finished
          · rfl
          · exact absurd hsf hnf
        refine ⟨hRoles, ?_, ?_⟩
        · intro hf
          have h2 : (true : Bool) = false := hf
          cases h2
        · intro _
          constructor
          · show s.transcriptLines ++ [[], markerLine] = _
            rw [hUnfin hfin0]
            rfl
          · rfl
    · exact hs
  | skipClick =>
    rw [step]
    split
    · simp [isSkipEvent] at hnoskip
    · exact hs

lemma transcriptInv_runTrace (maxTokens : Nat) (trace : List WEvent) (s : WState)
    (hclean : trace.all eventClean = true)
    (hnoskip : trace.all (fun e => !isSkipEvent e) = true)
    (hpf : noPostFinishReply maxTokens s trace = true)
    (hs : TranscriptInv s) : TranscriptInv (runTrace maxTokens s trace) := by
  induction trace generalizing s with
  | nil => exact hs
  | cons e tr ih =>
    rw [List.all_cons, Bool.and_eq_true] at hclean hnoskip
    rw [noPostFinishReply, Bool.and_eq_true] at hpf
    refine ih (step maxTokens s e) hclean.2 hnoskip.2 hpf.2
      (transcriptInv_step maxTokens s e hclean.1 (by simpa using hnoskip.1) ?_ hs)
    intro hf
    have h1 := hpf.1
    rw [hf] at h1
    simpa using h1

/-! ## Claim C9 -/

/-- C9 — counterexample to the claim as stated: `finishInterview` pushes an
empty separator line before the concluded marker, so the persisted answer
contains a line that is neither an `Interviewer: `/`User: ` line nor the
marker. -/
theorem C9_counterexample :
    ¬ (∀ l ∈ (splitNl
          (runTrace 6000 (initWidget true) finishAfterOpeningTrace).answerField).dropLast,
        isIULine l = true) := by decide

/-- C9 — amended: for every interview run (without Skip, with no reply
delivered after finishing, and with newline-free message payloads) that
reaches the finished state, the persisted answer value splits into the
`Interviewer: `/`User: ` lines of the conversation in order, followed by
one empty separator line and the `--- Interview concluded ---` marker
line. -/
theorem C9_amended (maxTokens : Nat) (hasPrompt : Bool) (trace : List WEvent)
    (hclean : trace.all eventClean = true)
    (hnoskip : trace.all (fun e => !isSkipEvent e) = true)
    (hpf : noPostFinishReply maxTokens (initWidget hasPrompt) trace = true)
    (hfin : (runTrace maxTokens (initWidget hasPrompt) trace).finished = true) :
    splitNl (runTrace maxTokens (initWidget hasPrompt) trace).answerField =
      ((runTrace maxTokens (initWidget hasPrompt) trace).displayed.map displayLine) ++
        [[], markerLine] ∧
    ∀ l ∈ (runTrace maxTokens (initWidget hasPrompt) trace).displayed.map displayLine,
      isIULine l = true := by
  obtain ⟨hRoles, -, hFin⟩ :=
    transcriptInv_runTrace maxTokens trace (initWidget hasPrompt) hclean hnoskip hpf
      (transcriptInv_init hasPrompt)
  obtain ⟨htr, hans⟩ := hFin hfin
  constructor
  · rw [hans, htr]
    apply splitNl_joinNl
    · simp
    · intro l hl
      rcases List.mem_append.mp hl with hl | hl
      · obtain ⟨b, hb, rfl⟩ := List.mem_map.mp hl
        exact noNl_displayLine b (hRoles b hb).2
      · rcases List.mem_cons.mp hl with rfl | hl
        · rfl
        · obtain rfl := List.mem_singleton.mp hl
          exact noNl_marker
  · intro l hl
    obtain ⟨b, hb, rfl⟩ := List.mem_map.mp hl
    rw [displayLine]
    split
    · simp [isIULine, isPrefixOf_append_self]
    · simp [isIULine, isPrefixOf_append_self]

/-- C9 — witness for the amended theorem on a concrete finished interview. -/
theorem C9_witness :
    splitNl (runTrace 6000 (initWidget true) shortInterviewTrace).answerField =
      ((runTrace 6000 (initWidget true) shortInterviewTrace).displayed.map displayLine) ++
        [[], markerLine] ∧
    ∀ l ∈ (runTrace 6000 (initWidget true) shortInterviewTrace).displayed.map displayLine,
      isIULine l = true :=
  C9_amended 6000 true shortInterviewTrace (by decide) (by decide) (by decide) (by decide)

/-! ## Claim C3 -/

/-- C3 — counterexample to the claim as stated: a user message containing a
newline whose second physical line starts with `Interviewer: ` is split by
the restoration parser into two bubbles, so a 2-bubble conversation is
restored as 3 bubbles with a spurious assistant role. -/
theorem C3_counterexample :
    ¬ ((restoreBubbles
          (jsTrim (runTrace 6000 (initWidget true) newlineInjectionTrace).answerField)).map
            Prod.fst =
        ((runTrace 6000 (initWidget true) newlineInjectionTrace).displayed).map Prod.fst) := by
  decide

/-- C3 — amended: for every interview run (without Skip, with no reply
delivered after finishing, and with newline-free message payloads) that
reaches the finished state, restoring from the persisted answer rebuilds
exactly the displayed bubbles — same count, same order, same role, and
same content. -/
theorem C3_amended (maxTokens : Nat) (hasPrompt : Bool) (trace : List WEvent)
    (hclean : trace.all eventClean = true)
    (hnoskip : trace.all (fun e => !isSkipEvent e) = true)
    (hpf : noPostFinishReply maxTokens (initWidget hasPrompt) trace = true)
    (hfin : (runTrace maxTokens (initWidget hasPrompt) trace).finished = true) :
    restoreBubbles (jsTrim (runTrace maxTokens (initWidget hasPrompt) trace).answerField) =
      (runTrace maxTokens (initWidget hasPrompt) trace).displayed := by
  obtain ⟨hRoles, -, hFin⟩ :=
    transcriptInv_runTrace maxTokens trace (initWidget hasPrompt) hclean hnoskip hpf
      (transcriptInv_init hasPrompt)
  obtain ⟨htr, hans⟩ := hFin hfin
  rw [hans, htr]
  cases hd : (runTrace maxTokens (initWidget hasPrompt) trace).displayed with
  | nil => decide
  | cons b ds =>
    have hRoles2 : ∀ x ∈ b :: ds, x.1 = "assistant" ∨ x.1 = "user" := by
      intro x hx
      exact (hRoles x (hd ▸ hx)).1
    have hlinesNl : ∀ l ∈ (b :: ds).map displayLine ++ [[], markerLine], noNl l = true := by
      intro l hl
      rcases List.mem_append.mp hl with hl | hl
      · obtain ⟨x, hx, rfl⟩ := List.mem_map.mp hl
        exact noNl_displayLine x (hRoles x (hd ▸ hx)).2
      · rcases List.mem_cons.mp hl with rfl | hl
        · rfl
        · obtain rfl := List.mem_singleton.mp hl
          exact noNl_marker
    have hjoin : jsTrim (joinNl ((b :: ds).map displayLine ++ [[], markerLine])) =
        joinNl ((b :: ds).map displayLine ++ [[], markerLine]) := by
      apply jsTrim_eq_self
      · intro c hc
        obtain ⟨c0, hc0, hc0s⟩ := head?_displayLine b
        rw [List.map_cons, List.cons_append,
          head?_joinNl _ _ (displayLine_ne_nil b), hc0] at hc
        obtain rfl := Option.some_inj.mp hc.symm
        exact hc0s
      · intro c hc
        rw [show (b :: ds).map displayLine ++ [[], markerLine] =
              ((b :: ds).map displayLine ++ [[]]) ++ [markerLine] by
            rw [List.append_assoc]; rfl,
          getLast?_joinNl _ markerLine '-' (by decide)] at hc
        obtain rfl := Option.some_inj.mp hc.symm
        decide
    rw [hjoin, restoreBubbles, splitNl_joinNl _ (by simp) hlinesNl, List.filterMap_append,
      filterMap_parse_displayLines _ hRoles2]
    rw [show ([[], markerLine] : List (List Char)).filterMap parseTranscriptLine = [] from rfl]
    rw [List.append_nil]

/-- C3 — witness for the amended theorem on a concrete finished interview. -/
theorem C3_witness :
    restoreBubbles (jsTrim (runTrace 6000 (initWidget true) shortInterviewTrace).answerField) =
      (runTrace 6000 (initWidget true) shortInterviewTrace).displayed :=
  C3_amended 6000 true shortInterviewTrace (by decide) (by decide) (by decide) (by decide)

end AIInterview
